import Mathlib

/-!
Verification development for the sandbox-monitor script of the
claude-code-marketplace repository (plugins/sandbox-cleanup/scripts/
sandbox-monitor.py).

The script's pure logic is shallowly embedded here:

  - shlex.split (POSIX mode, whitespace splitting) is modelled as a
    character-level state machine returning Option (List String), with
    none standing for the ValueError raised on an unterminated quote or a
    trailing escape character;
  - parse_artifacts is modelled over List String argument vectors, with a
    bounds-checked scan whose Option result models a possible uncaught
    IndexError (proved impossible);
  - find_bwrap_child is modelled over a finite trace of polling rounds:
    each trace element is one iteration of the while loop (one fresh read
    of the child set and of each candidate's cmdline); the end of the
    trace is the instant the monotonic clock reaches the 5-second
    deadline;
  - cleanup_artifacts is modelled over an association-list file system
    with an lstat view (a symbolic link is reported as itself, never
    followed) plus oracles telling which paths raise OSError on stat or
    unlink;
  - daemonize is modelled by the outcome of each of the three processes
    produced by the double fork;
  - main is modelled over a JSON-like value type, with Except capturing
    an exception escaping main (the interpreter then exits non-zero).
-/

namespace SandboxMonitor

/-- Whitespace characters recognised by the shell tokenizer: space, tab,
carriage return and newline (the value of shlex.whitespace). -/
def isShWhitespace (c : Char) : Bool :=
  c == ' ' || c == '\t' || c == '\r' || c == '\n'

/-- Tokenizer state: outside quotes, after a backslash outside quotes,
inside single quotes, inside double quotes, after a backslash inside
double quotes. -/
inductive SState where
  | normal
  | esc
  | single
  | double
  | descape
  deriving DecidableEq, Repr

/-- Core of the POSIX shell tokenizer used by parse_artifacts
(shlex.split with posix mode and whitespace splitting).  The third
argument is the token under construction: none when no token has been
started, some cs once one has (so that quoted empty strings still emit a
token).  Returns none where CPython raises ValueError: end of input
inside a quote or right after an escape character. -/
def shlexCore : List Char → SState → Option (List Char) → Option (List String)
  | [], .normal, none => some []
  | [], .normal, some t => some [String.mk t]
  | [], .esc, _ => none
  | [], .single, _ => none
  | [], .double, _ => none
  | [], .descape, _ => none
  | c :: rest, .normal, tok =>
    if isShWhitespace c then
      match tok with
      | none => shlexCore rest .normal none
      | some t => Option.map (fun l => String.mk t :: l) (shlexCore rest .normal none)
    else if c == '\\' then shlexCore rest .esc (some (tok.getD []))
    else if c == '\'' then shlexCore rest .single (some (tok.getD []))
    else if c == '"' then shlexCore rest .double (some (tok.getD []))
    else shlexCore rest .normal (some (tok.getD [] ++ [c]))
  | c :: rest, .esc, tok => shlexCore rest .normal (some (tok.getD [] ++ [c]))
  | c :: rest, .single, tok =>
    if c == '\'' then shlexCore rest .normal tok
    else shlexCore rest .single (some (tok.getD [] ++ [c]))
  | c :: rest, .double, tok =>
    if c == '"' then shlexCore rest .normal tok
    else if c == '\\' then shlexCore rest .descape tok
    else shlexCore rest .double (some (tok.getD [] ++ [c]))
  | c :: rest, .descape, tok =>
    if c == '"' || c == '\\' then shlexCore rest .double (some (tok.getD [] ++ [c]))
    else shlexCore rest .double (some (tok.getD [] ++ ['\\', c]))

/-- Model of shlex.split as called on line 156 of the script: none stands
for the ValueError caught by parse_artifacts. -/
def shlex_split (s : String) : Option (List String) :=
  shlexCore s.data .normal none

/-- The token scan of parse_artifacts (lines 160 to 168): while
i < len(args) - 2, match the three-token pattern --ro-bind /dev/null
followed by a destination, advancing by three tokens on a match and by
one otherwise.  Every index access is bounds checked — returning none
models an IndexError the Python code would not catch — and the
subtraction in the guard is the truncated Nat subtraction, which agrees
with the Python comparison i < len(args) - 2 for every i and length. -/
def scanLoopChecked (args : List String) (i : Nat) (acc : List String) : Option (List String) :=
  if _h : i < args.length - 2 then
    (args[i]?).bind fun a =>
      if a == "--ro-bind" then
        (args[i+1]?).bind fun b =>
          if b == "/dev/null" then
            (args[i+2]?).bind fun c => scanLoopChecked args (i+3) (acc ++ [c])
          else scanLoopChecked args (i+1) acc
      else scanLoopChecked args (i+1) acc
  else some acc
termination_by args.length - i
decreasing_by
  all_goals omega

/-- parse_artifacts (lines 146 to 168): on a cmdline shorter than four
elements return the empty list; otherwise tokenize the fourth element,
returning the empty list when tokenization fails, and scan the tokens.
An artifact is modelled by its path string (the script wraps it in
pathlib.Path, which does not change which file the path names).  The
Option result models an uncaught exception escaping parse_artifacts. -/
def parse_artifacts (cmdline : List String) : Option (List String) :=
  if cmdline.length < 4 then some []
  else
    match shlex_split (cmdline.getD 3 "") with
    | none => some []
    | some args => scanLoopChecked args 0 []

/-- Specification-level description of the scan, written exactly as the
spec states it: scan left to right; on the three-token pattern record
the destination and advance past all three tokens, otherwise advance by
one token; stop when fewer than three tokens remain. -/
def patternArtifacts : List String → List String
  | a :: b :: c :: rest =>
    if a == "--ro-bind" && b == "/dev/null" then c :: patternArtifacts rest
    else patternArtifacts (b :: c :: rest)
  | _ => []

/-- Does pat occur at the start of hay (character lists)? -/
def startsWithL : List Char → List Char → Bool
  | _, [] => true
  | [], _ :: _ => false
  | a :: hs, b :: ps => a == b && startsWithL hs ps

/-- Substring test: the Python expression pat in hay on strings.  The
empty pattern occurs in every string, as in Python. -/
def hasSubstr : List Char → List Char → Bool
  | hay, pat =>
    startsWithL hay pat ||
      match hay with
      | [] => false
      | _ :: t => hasSubstr t pat

/-- Python membership test command in text for strings. -/
def strContains (hay pat : String) : Bool :=
  hasSubstr hay.data pat.data

/-- The joined cmdline blob built on line 138 of the script:
a space-separated join of the argument vector. -/
def joinCmdline (c : List String) : String :=
  String.intercalate " " c

/-- One iteration of the polling loop of find_bwrap_child: the child set
of the watched parent as read at that instant (in iteration order) and
the cmdline the process table reports for each pid at that instant.
get_cmdline returns the empty list when /proc/pid/cmdline is unreadable,
so disappearance is represented by the empty vector. -/
structure ProcRound where
  children : List Nat
  cmdline : Nat → List String

/-- The inner for loop of find_bwrap_child (lines 134 to 139): walk the
children not in the existing snapshot; skip a candidate whose cmdline is
empty; return the first candidate whose joined cmdline contains the
command. -/
def scanChildren (command : String) (existing : List Nat) (cmdlineOf : Nat → List String) :
    List Nat → Option (Nat × List String)
  | [] => none
  | pid :: rest =>
    if pid ∈ existing then scanChildren command existing cmdlineOf rest
    else if (cmdlineOf pid).isEmpty then scanChildren command existing cmdlineOf rest
    else if strContains (joinCmdline (cmdlineOf pid)) command then some (pid, cmdlineOf pid)
    else scanChildren command existing cmdlineOf rest

/-- find_bwrap_child (lines 122 to 143) over a finite trace of polling
rounds.  Each list element is one iteration of the while loop executed
while the monotonic clock is still before the 5-second deadline; the end
of the list is the deadline expiring, at which point the function
returns None. -/
def find_bwrap_child (command : String) (existing : List Nat) :
    List ProcRound → Option (Nat × List String)
  | [] => none
  | r :: rest =>
    match scanChildren command existing r.cmdline r.children with
    | some res => some res
    | none => find_bwrap_child command existing rest

/-- A file-system node as reported by lstat: a regular file with its
size, a symbolic link (reported as itself, never followed, with the
size of its target text), a directory, or anything else (socket, fifo,
device). -/
inductive FSNode where
  | regular (size : Nat)
  | symlink (target : String)
  | dir
  | other
  deriving DecidableEq, Repr

/-- stat.S_ISREG of the node's mode. -/
def S_ISREG : FSNode → Bool
  | .regular _ => true
  | _ => false

/-- st_size of the node, as lstat reports it (a symbolic link's own size
is the length of its target text). -/
def st_size : FSNode → Nat
  | .regular n => n
  | .symlink t => t.length
  | .dir => 0
  | .other => 0

/-- A file system is an association list from paths to lstat nodes; a
missing key is a missing path (lstat raises OSError with ENOENT). -/
abbrev FS := List (String × FSNode)

/-- Unlinking a path removes its entry from the file system. -/
def fsErase (fs : FS) (p : String) : FS :=
  fs.filter (fun e => !(e.1 == p))

/-- Look a path up in the file system: the node lstat reports for it, or
none when the path is missing (first binding wins; a real directory
tree binds each path at most once). -/
def fsLookup (p : String) : FS → Option FSNode
  | [] => none
  | e :: rest => if e.1 = p then some e.2 else fsLookup p rest

/-- One iteration of the cleanup loop (lines 174 to 181) on state
(file system, removed count) for path p.  statFails p models an OSError
raised by lstat on an existing path (permissions); a missing path also
raises OSError.  When the node is a regular file of size zero the script
unlinks it; unlinkFails p models an OSError raised by unlink, caught by
the same handler before removed is incremented.  Every OSError is
swallowed and the loop moves to the next artifact. -/
def cleanupStep (statFails unlinkFails : String → Bool) (st : FS × Nat) (p : String) : FS × Nat :=
  if statFails p then st
  else
    match fsLookup p st.1 with
    | none => st
    | some node =>
      if S_ISREG node && st_size node == 0 then
        if unlinkFails p then st
        else (fsErase st.1 p, st.2 + 1)
      else st

/-- cleanup_artifacts (lines 171 to 182): fold the cleanup step over the
tracked artifact paths, starting from removed = 0; returns the final
file system and the count of files removed. -/
def cleanup_artifacts (statFails unlinkFails : String → Bool) (fs : FS)
    (artifacts : List String) : FS × Nat :=
  artifacts.foldl (cleanupStep statFails unlinkFails) (fs, 0)

/-- Does the cleanup loop, arriving at file system fs, delete path p on
processing it: lstat succeeds, reports a regular file of size zero, and
unlink succeeds. -/
def wouldDelete (statFails unlinkFails : String → Bool) (fs : FS) (p : String) : Bool :=
  if statFails p then false
  else
    match fsLookup p fs with
    | none => false
    | some node =>
      if S_ISREG node && st_size node == 0 then !unlinkFails p
      else false

/-- What a process does inside daemonize: return a boolean to its
caller, or terminate there. -/
inductive DOutcome where
  | ret (b : Bool)
  | exited (code : Nat)
  deriving DecidableEq, Repr

/-- The three processes involved in the double fork of daemonize
(lines 185 to 199): the original caller (for which the first fork
returns a positive pid), the intermediate child (for which the second
fork returns a positive pid), and the surviving grandchild. -/
inductive Role where
  | original
  | intermediate
  | grandchild
  deriving DecidableEq, Repr

/-- Control flow of daemonize per process: the original caller returns
False (line 187 to 188); the intermediate child calls os._exit(0) and
never returns (lines 190 to 191); the grandchild redirects its standard
streams to the null device and returns True (lines 193 to 199). -/
def daemonize_outcome : Role → DOutcome
  | .original => .ret false
  | .intermediate => .exited 0
  | .grandchild => .ret true

/-- A JSON value as json.load produces it (numbers modelled by integers;
the fractional part of a number plays no role in main). -/
inductive JValue where
  | null
  | bool (b : Bool)
  | num (n : Int)
  | str (s : String)
  | arr (elems : List JValue)
  | obj (fields : List (String × JValue))

/-- Python x.get(k, d): defined on dictionaries only; on any other value
the attribute access raises AttributeError, which main does not catch. -/
def pyGet (v : JValue) (k : String) (d : JValue) : Except String JValue :=
  match v with
  | .obj fields =>
    match List.lookup k fields with
    | some w => .ok w
    | none => .ok d
  | _ => .error "AttributeError"

/-- Python truthiness of a JSON value. -/
def truthy : JValue → Bool
  | .null => false
  | .bool b => b
  | .num n => n != 0
  | .str s => !s.isEmpty
  | .arr l => !l.isEmpty
  | .obj f => !f.isEmpty

/-- Control flow of main (lines 229 to 249) in the top-level process,
up to the point where the original process observes daemonize() = False
and calls sys.exit(0).  stdin is the result of json.load: none models
JSONDecodeError or EOFError (caught, exit 0).  enabled is the truthiness
of is_sandbox_enabled(), which swallows every error of the settings
merge and so always yields a value.  ppid is the result of get_ppid,
which returns None on any read or parse failure.  The Except error case
models an exception escaping main, after which the interpreter exits
with a non-zero status.  Every path of the surviving daemon is behind
daemonize() = True and therefore does not affect the top-level exit
status; its monitor call is wrapped in a catch-all handler
(lines 253 to 256). -/
def main_toplevel (stdin : Option JValue) (enabled : Bool) (ppid : Option Int) :
    Except String Int :=
  match stdin with
  | none => .ok 0
  | some hookInput =>
    if !enabled then .ok 0
    else
      match pyGet hookInput "tool_input" (.obj []) with
      | .error e => .error e
      | .ok toolInput =>
        match pyGet toolInput "command" (.str "") with
        | .error e => .error e
        | .ok command =>
          if !truthy command then .ok 0
          else
            match ppid with
            | none => .ok 0
            | some p => if p ≤ 1 then .ok 0 else .ok 0

/-- Shapes of the hook input on which the chained get calls of line 238
are defined: a dictionary whose tool_input key, when present, holds a
dictionary. -/
def hookShapeSafe : JValue → Bool
  | .obj fields =>
    match List.lookup "tool_input" fields with
    | none => true
    | some (.obj _) => true
    | some _ => false
  | _ => false

/-- Any pair the inner scan of find_bwrap_child returns in one round
consists of a pid outside the exclusion snapshot together with its
non-empty cmdline, whose joined form contains the command. -/
theorem scanChildren_spec (command : String) (existing : List Nat)
    (cmdlineOf : Nat → List String) (l : List Nat) (pid : Nat) (c : List String)
    (h : scanChildren command existing cmdlineOf l = some (pid, c)) :
    pid ∉ existing ∧ c ≠ [] ∧ strContains (joinCmdline c) command = true := by
  induction l with
  | nil => simp [scanChildren] at h
  | cons q rest ih =>
    rw [scanChildren] at h
    by_cases hq : q ∈ existing
    · rw [if_pos hq] at h
      exact ih h
    · rw [if_neg hq] at h
      by_cases he : (cmdlineOf q).isEmpty
      · rw [if_pos he] at h
        exact ih h
      · rw [if_neg he] at h
        by_cases hs : strContains (joinCmdline (cmdlineOf q)) command = true
        · rw [if_pos hs] at h
          simp only [Option.some.injEq, Prod.mk.injEq] at h
          obtain ⟨h1, h2⟩ := h
          subst h1
          subst h2
          exact ⟨hq, fun hnil => he (by rw [hnil]; rfl), hs⟩
        · rw [if_neg hs] at h
          exact ih h

/-- If in one round no candidate outside the exclusion snapshot has a
joined cmdline containing the command, the inner scan finds nothing. -/
theorem scanChildren_none (command : String) (existing : List Nat)
    (cmdlineOf : Nat → List String) (l : List Nat)
    (hno : ∀ pid ∈ l, pid ∉ existing →
      strContains (joinCmdline (cmdlineOf pid)) command = false) :
    scanChildren command existing cmdlineOf l = none := by
  induction l with
  | nil => rfl
  | cons q rest ih =>
    rw [scanChildren]
    by_cases hq : q ∈ existing
    · rw [if_pos hq]
      exact ih fun p hp => hno p (List.mem_cons_of_mem _ hp)
    · rw [if_neg hq]
      by_cases he : (cmdlineOf q).isEmpty
      · rw [if_pos he]
        exact ih fun p hp => hno p (List.mem_cons_of_mem _ hp)
      · rw [if_neg he]
        have hf : strContains (joinCmdline (cmdlineOf q)) command = false :=
          hno q (List.mem_cons_self q rest) hq
        rw [if_neg (by rw [hf]; exact Bool.false_ne_true)]
        exact ih fun p hp => hno p (List.mem_cons_of_mem _ hp)

/-- Any result of find_bwrap_child satisfies the per-round guarantees of
the inner scan. -/
theorem find_bwrap_child_spec (command : String) (existing : List Nat)
    (rounds : List ProcRound) (pid : Nat) (c : List String)
    (h : find_bwrap_child command existing rounds = some (pid, c)) :
    pid ∉ existing ∧ c ≠ [] ∧ strContains (joinCmdline c) command = true := by
  induction rounds with
  | nil => simp [find_bwrap_child] at h
  | cons r rest ih =>
    rw [find_bwrap_child] at h
    cases hs : scanChildren command existing r.cmdline r.children with
    | none =>
      rw [hs] at h
      exact ih h
    | some res =>
      rw [hs] at h
      simp only [Option.some.injEq] at h
      subst h
      exact scanChildren_spec command existing r.cmdline r.children pid c hs

/-- C3: for every parent id (its child listing taken round by round),
fragment and exclusion set, find_bwrap_child never returns a process id
that is a member of the exclusion set, even if that process's argument
vector contains the fragment. -/
theorem find_bwrap_child_not_excluded (command : String) (existing : List Nat)
    (rounds : List ProcRound) (pid : Nat) (c : List String)
    (h : find_bwrap_child command existing rounds = some (pid, c)) :
    pid ∉ existing :=
  (find_bwrap_child_spec command existing rounds pid c h).1

/-- Witness for C3: a concrete trace in which the pid 5 is found while
pid 3 is excluded. -/
theorem find_bwrap_child_not_excluded_witness :
    (5 : Nat) ∉ [3] :=
  find_bwrap_child_not_excluded "bwrap" [3]
    [⟨[3, 5], fun p => if p == 5 then ["zsh", "-c", "-l", "bwrap x"] else []⟩]
    5 ["zsh", "-c", "-l", "bwrap x"] (by decide)

/-- C6: whenever find_bwrap_child returns a pair, the returned argument
vector is non-empty and the fragment occurs as a contiguous substring of
the argument vector joined into a single text blob; candidates with
empty argument vectors are skipped and never returned. -/
theorem find_bwrap_child_match (command : String) (existing : List Nat)
    (rounds : List ProcRound) (pid : Nat) (c : List String)
    (h : find_bwrap_child command existing rounds = some (pid, c)) :
    c ≠ [] ∧ strContains (joinCmdline c) command = true :=
  (find_bwrap_child_spec command existing rounds pid c h).2

/-- Witness for C6: a concrete trace whose first round has an
empty-cmdline candidate (pid 8, skipped) and a matching candidate
(pid 9). -/
theorem find_bwrap_child_match_witness :
    (["zsh", "-c", "-l", "eval bwrap hi"] : List String) ≠ [] ∧
      strContains (joinCmdline ["zsh", "-c", "-l", "eval bwrap hi"]) "eval bwrap" = true :=
  find_bwrap_child_match "eval bwrap" []
    [⟨[8, 9], fun p => if p == 9 then ["zsh", "-c", "-l", "eval bwrap hi"] else []⟩]
    9 ["zsh", "-c", "-l", "eval bwrap hi"] (by decide)

/-- C5: if in no polling round before the deadline does a candidate
child outside the exclusion set have a joined argument vector containing
the fragment, find_bwrap_child returns none when the deadline expires
(the end of the round trace). -/
theorem find_bwrap_child_timeout (command : String) (existing : List Nat)
    (rounds : List ProcRound)
    (hno : ∀ r ∈ rounds, ∀ pid ∈ r.children, pid ∉ existing →
      strContains (joinCmdline (r.cmdline pid)) command = false) :
    find_bwrap_child command existing rounds = none := by
  induction rounds with
  | nil => rfl
  | cons r rest ih =>
    rw [find_bwrap_child]
    rw [scanChildren_none command existing r.cmdline r.children
      (hno r (List.mem_cons_self r rest))]
    exact ih fun r2 hr2 => hno r2 (List.mem_cons_of_mem _ hr2)

/-- Witness for C5: two rounds in which the only non-excluded candidates
never match the fragment, ending in none. -/
theorem find_bwrap_child_timeout_witness :
    (∀ r ∈ ([⟨[3, 6], fun p => if p == 6 then ["sleep", "1"] else ["zsh", "bwrap"]⟩,
        ⟨[6], fun _ => ["sleep", "2"]⟩] : List ProcRound),
      ∀ pid ∈ r.children, pid ∉ [3] →
        strContains (joinCmdline (r.cmdline pid)) "bwrap" = false) ∧
    find_bwrap_child "bwrap" [3]
      [⟨[3, 6], fun p => if p == 6 then ["sleep", "1"] else ["zsh", "bwrap"]⟩,
        ⟨[6], fun _ => ["sleep", "2"]⟩] = none :=
  ⟨by decide,
    find_bwrap_child_timeout "bwrap" [3]
      [⟨[3, 6], fun p => if p == 6 then ["sleep", "1"] else ["zsh", "bwrap"]⟩,
        ⟨[6], fun _ => ["sleep", "2"]⟩] (by decide)⟩

/-- One cleanup iteration either deletes the processed path (when it
would be deleted arriving at this file system) or leaves the state
untouched. -/
theorem cleanupStep_eq (statF unlinkF : String → Bool) (fs : FS) (r : Nat) (p : String) :
    cleanupStep statF unlinkF (fs, r) p =
      if wouldDelete statF unlinkF fs p then (fsErase fs p, r + 1) else (fs, r) := by
  unfold cleanupStep wouldDelete
  by_cases hs : statF p
  · simp [hs]
  · simp only [hs, Bool.false_eq_true, if_false]
    cases hl : fsLookup p fs with
    | none => simp
    | some node =>
      by_cases hr : S_ISREG node && st_size node == 0
      · simp only [hr, if_true]
        by_cases hu : unlinkF p
        · simp [hu]
        · simp [hu]
      · simp [hr]

/-- Looking a path up after erasing one: the erased path is gone, every
other path is unaffected. -/
theorem fsLookup_fsErase (fs : FS) (p q : String) :
    fsLookup q (fsErase fs p) = if q = p then none else fsLookup q fs := by
  induction fs with
  | nil => simp [fsErase, fsLookup]
  | cons e rest ih =>
    rw [fsErase, List.filter_cons]
    by_cases hk : e.1 = p
    · rw [if_neg (by simp [hk]),
        show List.filter (fun e => !(e.1 == p)) rest = fsErase rest p from rfl, ih]
      by_cases hq : q = p
      · rw [if_pos hq, if_pos hq]
      · rw [if_neg hq, if_neg hq, fsLookup,
          if_neg (fun h : e.1 = q => hq (h.symm.trans hk))]
    · rw [if_pos (by simp [hk]), fsLookup,
        show List.filter (fun e => !(e.1 == p)) rest = fsErase rest p from rfl]
      by_cases he : e.1 = q
      · rw [if_pos he, if_neg (fun h : q = p => hk (he.trans h)), fsLookup, if_pos he]
      · rw [if_neg he, ih]
        by_cases hq : q = p
        · rw [if_pos hq, if_pos hq]
        · rw [if_neg hq, if_neg hq, fsLookup, if_neg he]

/-- A path would be deleted after erasing a different path exactly when
it would be deleted before. -/
theorem wouldDelete_fsErase (statF unlinkF : String → Bool) (fs : FS) (p q : String)
    (hpq : q ≠ p) :
    wouldDelete statF unlinkF (fsErase fs p) q = wouldDelete statF unlinkF fs q := by
  unfold wouldDelete
  rw [fsLookup_fsErase, if_neg hpq]

/-- The removed counter is an accumulator: starting the fold at count r
adds r to the count of the fold started at zero and produces the same
file system. -/
theorem cleanup_foldl_shift (statF unlinkF : String → Bool) (arts : List String) :
    ∀ (fs : FS) (r : Nat),
      List.foldl (cleanupStep statF unlinkF) (fs, r) arts =
        ((List.foldl (cleanupStep statF unlinkF) (fs, 0) arts).1,
          r + (List.foldl (cleanupStep statF unlinkF) (fs, 0) arts).2) := by
  induction arts with
  | nil => intro fs r; simp
  | cons a rest ih =>
    intro fs r
    rw [List.foldl_cons, List.foldl_cons, cleanupStep_eq, cleanupStep_eq]
    by_cases hd : wouldDelete statF unlinkF fs a
    · rw [if_pos hd, if_pos hd, ih (fsErase fs a) (r + 1), ih (fsErase fs a) (0 + 1)]
      refine Prod.ext rfl ?_
      simp only
      omega
    · rw [if_neg hd, if_neg hd, ih fs r]

/-- C1: for every tracked artifact list without repeated paths, every
initial file system and every pattern of stat/unlink failures, the
cleanup removes a tracked path exactly when, at cleanup time, lstat
succeeds on it reporting a regular file of size zero and unlink
succeeds; a non-empty file stays, a missing path is skipped without
error, a failure on one artifact leaves every other artifact processed
as usual, and the returned count is exactly the number of paths
deleted. -/
theorem cleanup_artifacts_spec (statF unlinkF : String → Bool) (fs : FS)
    (arts : List String) (hnd : arts.Nodup) :
    (cleanup_artifacts statF unlinkF fs arts).2 =
      (arts.filter (fun p => wouldDelete statF unlinkF fs p)).length ∧
    ∀ q : String, fsLookup q (cleanup_artifacts statF unlinkF fs arts).1 =
      if q ∈ arts ∧ wouldDelete statF unlinkF fs q = true then none
      else fsLookup q fs := by
  induction arts generalizing fs with
  | nil =>
    refine ⟨rfl, fun q => ?_⟩
    simp [cleanup_artifacts]
  | cons a rest ih =>
    obtain ⟨ha, hrest⟩ := List.nodup_cons.mp hnd
    obtain ⟨ihc, ihl⟩ := ih (fsErase fs a) hrest
    obtain ⟨ihc2, ihl2⟩ := ih fs hrest
    unfold cleanup_artifacts at *
    rw [List.foldl_cons, cleanupStep_eq]
    by_cases hd : wouldDelete statF unlinkF fs a
    · rw [if_pos hd, cleanup_foldl_shift]
      have hfc : List.filter (fun p => wouldDelete statF unlinkF (fsErase fs a) p) rest =
          List.filter (fun p => wouldDelete statF unlinkF fs p) rest :=
        List.filter_congr
          (fun p hp => wouldDelete_fsErase statF unlinkF fs a p
            (fun hpa => ha (hpa ▸ hp)))
      constructor
      · rw [List.filter_cons, if_pos (by rw [hd]), List.length_cons]
        have : (List.foldl (cleanupStep statF unlinkF) (fsErase fs a, 0) rest).2 =
            (List.filter (fun p => wouldDelete statF unlinkF fs p) rest).length := by
          rw [ihc, hfc]
        simp only
        omega
      · intro q
        have hl : fsLookup q
            ((List.foldl (cleanupStep statF unlinkF) (fsErase fs a, 0) rest).1,
              0 + 1 + (List.foldl (cleanupStep statF unlinkF) (fsErase fs a, 0) rest).2).1 =
            fsLookup q (List.foldl (cleanupStep statF unlinkF) (fsErase fs a, 0) rest).1 := rfl
        rw [hl, ihl q]
        by_cases hqa : q = a
        · subst hqa
          rw [if_neg (fun hmem => ha hmem.1), fsLookup_fsErase, if_pos rfl,
            if_pos ⟨List.mem_cons_self q rest, hd⟩]
        · rw [wouldDelete_fsErase statF unlinkF fs a q hqa,
            fsLookup_fsErase, if_neg hqa]
          by_cases hq : q ∈ rest ∧ wouldDelete statF unlinkF fs q = true
          · rw [if_pos hq, if_pos ⟨List.mem_cons_of_mem a hq.1, hq.2⟩]
          · rw [if_neg hq,
              if_neg (fun hq2 => hq ⟨List.mem_of_ne_of_mem hqa hq2.1, hq2.2⟩)]
    · rw [if_neg hd]
      constructor
      · rw [List.filter_cons, if_neg hd, ihc2]
      · intro q
        rw [ihl2 q]
        by_cases hqa : q = a
        · subst hqa
          rw [if_neg (fun hmem => ha hmem.1),
            if_neg (show ¬(q ∈ q :: rest ∧ wouldDelete statF unlinkF fs q = true) from
              fun hmem => hd hmem.2)]
        · by_cases hq : q ∈ rest ∧ wouldDelete statF unlinkF fs q = true
          · rw [if_pos hq, if_pos ⟨List.mem_cons_of_mem a hq.1, hq.2⟩]
          · rw [if_neg hq,
              if_neg (fun hq2 => hq ⟨List.mem_of_ne_of_mem hqa hq2.1, hq2.2⟩)]

/-- Witness for C1: three tracked paths over a file system holding an
empty regular file, a non-empty regular file and nothing at the third
path; no stat or unlink failures; exactly one file is removed. -/
theorem cleanup_artifacts_spec_witness :
    (["/tmp/x", "/tmp/y", "/tmp/gone"] : List String).Nodup ∧
      (cleanup_artifacts (fun _ => false) (fun _ => false)
        [("/tmp/x", FSNode.regular 0), ("/tmp/y", FSNode.regular 5)]
        ["/tmp/x", "/tmp/y", "/tmp/gone"]).2 =
      ((["/tmp/x", "/tmp/y", "/tmp/gone"] : List String).filter
        (fun p => wouldDelete (fun _ => false) (fun _ => false)
          [("/tmp/x", FSNode.regular 0), ("/tmp/y", FSNode.regular 5)] p)).length :=
  ⟨by decide,
    (cleanup_artifacts_spec (fun _ => false) (fun _ => false)
      [("/tmp/x", FSNode.regular 0), ("/tmp/y", FSNode.regular 5)]
      ["/tmp/x", "/tmp/y", "/tmp/gone"] (by decide)).1⟩

/-- The cleanup fold never touches a path at which the file system
reports a symbolic link, whatever count the fold starts from. -/
theorem cleanup_foldl_symlink (statF unlinkF : String → Bool) (p t : String)
    (arts : List String) :
    ∀ (fs : FS) (r : Nat), fsLookup p fs = some (FSNode.symlink t) →
      fsLookup p (List.foldl (cleanupStep statF unlinkF) (fs, r) arts).1 =
        some (FSNode.symlink t) := by
  induction arts with
  | nil => intro fs r hp; exact hp
  | cons a rest ih =>
    intro fs r hp
    rw [List.foldl_cons, cleanupStep_eq]
    by_cases hd : wouldDelete statF unlinkF fs a
    · rw [if_pos hd]
      have hap : p ≠ a := by
        intro he
        rw [← he] at hd
        unfold wouldDelete at hd
        rw [hp] at hd
        simp [S_ISREG] at hd
      exact ih (fsErase fs a) (r + 1) (by rw [fsLookup_fsErase, if_neg hap]; exact hp)
    · rw [if_neg hd]
      exact ih fs r hp

/-- C9: a symbolic link at a tracked artifact path is never deleted by
cleanup, even when the link's target is an empty regular file, because
the lstat check is performed on the link itself without following it
(the model's file system maps each path to its lstat node, so the link
path reports the link, not its target). -/
theorem cleanup_artifacts_symlink (statF unlinkF : String → Bool) (fs : FS)
    (arts : List String) (p t : String)
    (hp : fsLookup p fs = some (FSNode.symlink t))
    (_ht : fsLookup t fs = some (FSNode.regular 0)) :
    fsLookup p (cleanup_artifacts statF unlinkF fs arts).1 =
      some (FSNode.symlink t) :=
  cleanup_foldl_symlink statF unlinkF p t arts fs 0 hp

/-- Witness for C9: a tracked symbolic link pointing at a tracked empty
regular file survives the cleanup that removes its target. -/
theorem cleanup_artifacts_symlink_witness :
    fsLookup "/tmp/link"
        ([("/tmp/link", FSNode.symlink "/tmp/x"), ("/tmp/x", FSNode.regular 0)] : FS) =
      some (FSNode.symlink "/tmp/x") ∧
    fsLookup "/tmp/link"
        (cleanup_artifacts (fun _ => false) (fun _ => false)
          [("/tmp/link", FSNode.symlink "/tmp/x"), ("/tmp/x", FSNode.regular 0)]
          ["/tmp/link", "/tmp/x"]).1 =
      some (FSNode.symlink "/tmp/x") :=
  ⟨by decide,
    cleanup_artifacts_symlink (fun _ => false) (fun _ => false)
      [("/tmp/link", FSNode.symlink "/tmp/x"), ("/tmp/x", FSNode.regular 0)]
      ["/tmp/link", "/tmp/x"] "/tmp/link" "/tmp/x" (by decide) (by decide)⟩

/-- C8 counterexample: the claim asserts that detach returns false in
the intermediate process, but the intermediate process never returns
from daemonize: the second fork's parent branch terminates inside it via
os._exit(0) on line 191. -/
theorem daemonize_intermediate_no_return :
    daemonize_outcome Role.intermediate ≠ DOutcome.ret false := by
  decide

/-- C8 amended: daemonize, called once, returns true in exactly the
surviving grandchild process, returns false in exactly the original
caller, and the intermediate process terminates inside daemonize with
exit status 0 without returning; hence exactly one of the three
processes involved continues as the monitoring instance and the other
two terminate without doing cleanup work (the original caller exits
immediately on the false return, line 248 to 249 of main). -/
theorem daemonize_roles :
    (∀ r, daemonize_outcome r = DOutcome.ret true ↔ r = Role.grandchild) ∧
    (∀ r, daemonize_outcome r = DOutcome.ret false ↔ r = Role.original) ∧
    daemonize_outcome Role.intermediate = DOutcome.exited 0 ∧
    (([Role.original, Role.intermediate, Role.grandchild].filter
        (fun r => daemonize_outcome r == DOutcome.ret true)).length = 1) := by
  refine ⟨?_, ?_, rfl, rfl⟩ <;> intro r <;> cases r <;> simp [daemonize_outcome]

/-- C7 counterexample: with the sandbox enabled, a start-up input that
is valid JSON but not an object — here the empty array — reaches
line 238, where the attribute access on a non-dictionary raises an
uncaught AttributeError before daemonize runs, so the top-level
invocation terminates with a traceback and a non-zero status instead of
exiting zero. -/
theorem main_toplevel_nondict_raises :
    main_toplevel (some (JValue.arr [])) true (some 1234) =
      Except.error "AttributeError" := rfl

/-- C7 amended: the top-level invocation exits with a zero-equivalent
status for every start-up input — malformed JSON, a missing or empty
command, an unusable parent id, and any internal failure of the tracking
phase (which runs in the detached daemon behind the catch-all handler of
lines 253 to 256) — except that, when the sandbox is enabled and the
decoded record is not an object, or its tool_input field holds a
non-object, the chained get calls of line 238 raise an uncaught
AttributeError before detaching and the process exits non-zero. -/
theorem main_toplevel_unfold_some_true (v : JValue) (ppid : Option Int) :
    main_toplevel (some v) true ppid =
      (match pyGet v "tool_input" (JValue.obj []) with
      | .error e => .error e
      | .ok toolInput =>
        match pyGet toolInput "command" (JValue.str "") with
        | .error e => .error e
        | .ok command =>
          if !truthy command then .ok 0
          else
            match ppid with
            | none => .ok 0
            | some p => if p ≤ 1 then .ok 0 else .ok 0) := rfl

/-- pyGet on a dictionary returns the bound value or the default. -/
theorem pyGet_obj (fields : List (String × JValue)) (k : String) (d : JValue) :
    pyGet (JValue.obj fields) k d =
      (match List.lookup k fields with
      | some w => Except.ok w
      | none => Except.ok d) := rfl

/-- hookShapeSafe on a dictionary inspects the tool_input binding. -/
theorem hookShapeSafe_obj (fields : List (String × JValue)) :
    hookShapeSafe (JValue.obj fields) =
      (match List.lookup "tool_input" fields with
      | none => true
      | some (.obj _) => true
      | some _ => false) := rfl

theorem main_toplevel_exit_zero (stdin : Option JValue) (enabled : Bool)
    (ppid : Option Int)
    (hsafe : ∀ v, stdin = some v → enabled = true → hookShapeSafe v = true) :
    main_toplevel stdin enabled ppid = Except.ok 0 := by
  cases stdin with
  | none => rfl
  | some v =>
    cases enabled with
    | false => rfl
    | true =>
      have hv := hsafe v rfl rfl
      cases v with
      | obj fields =>
        rw [main_toplevel_unfold_some_true, pyGet_obj]
        rw [hookShapeSafe_obj] at hv
        cases hl : List.lookup "tool_input" fields with
        | none => rfl
        | some w =>
          rw [hl] at hv
          cases w with
          | obj wf =>
            show (match pyGet (JValue.obj wf) "command" (JValue.str "") with
              | Except.error e => Except.error e
              | Except.ok command =>
                if (!truthy command) = true then (Except.ok 0 : Except String Int)
                else
                  match ppid with
                  | none => Except.ok 0
                  | some p => if p ≤ 1 then Except.ok 0 else Except.ok 0) = Except.ok 0
            rw [pyGet_obj]
            cases hc : List.lookup "command" wf with
            | none => rfl
            | some cv =>
              show (if (!truthy cv) = true then (Except.ok 0 : Except String Int)
                else
                  match ppid with
                  | none => Except.ok 0
                  | some p => if p ≤ 1 then Except.ok 0 else Except.ok 0) = Except.ok 0
              cases htr : truthy cv with
              | false => rfl
              | true =>
                cases ppid with
                | none => rfl
                | some p =>
                  show (if p ≤ 1 then (Except.ok 0 : Except String Int) else Except.ok 0) =
                    Except.ok 0
                  by_cases hp : p ≤ 1
                  · rw [if_pos hp]
                  · rw [if_neg hp]
          | null => exact Bool.noConfusion hv
          | bool b => exact Bool.noConfusion hv
          | num n => exact Bool.noConfusion hv
          | str s => exact Bool.noConfusion hv
          | arr l => exact Bool.noConfusion hv
      | null => exact Bool.noConfusion hv
      | bool b => exact Bool.noConfusion hv
      | num n => exact Bool.noConfusion hv
      | str s => exact Bool.noConfusion hv
      | arr l => exact Bool.noConfusion hv

/-- Witness for C7 amended: a well-shaped hook record with the sandbox
enabled exits zero. -/
theorem main_toplevel_exit_zero_witness :
    hookShapeSafe
        (JValue.obj [("tool_input", JValue.obj [("command", JValue.str "ls")])]) = true ∧
      main_toplevel
        (some (JValue.obj [("tool_input", JValue.obj [("command", JValue.str "ls")])]))
        true (some 42) = Except.ok 0 :=
  ⟨rfl,
    main_toplevel_exit_zero
      (some (JValue.obj [("tool_input", JValue.obj [("command", JValue.str "ls")])]))
      true (some 42) (fun v hv _ => by cases hv; rfl)⟩

/-- A token list with fewer than three tokens holds no occurrence of the
three-token pattern. -/
theorem patternArtifacts_short (l : List String) (h : l.length < 3) :
    patternArtifacts l = [] := by
  match l with
  | [] => rfl
  | [a] => rfl
  | [a, b] => rfl
  | a :: b :: c :: t => simp only [List.length_cons] at h; omega

/-- The indexed, bounds-checked while loop of parse_artifacts computes
exactly the greedy left-to-right occurrence scan described by the spec,
applied to the tokens from position i on, and in particular never takes
the IndexError branch. -/
theorem scanLoopChecked_eq_pattern (args : List String) :
    ∀ (n i : Nat) (acc : List String), args.length - i ≤ n →
      scanLoopChecked args i acc = some (acc ++ patternArtifacts (List.drop i args)) := by
  intro n
  induction n with
  | zero =>
    intro i acc h
    rw [scanLoopChecked, dif_neg (by omega), List.drop_eq_nil_of_le (by omega),
      show patternArtifacts [] = [] from rfl, List.append_nil]
  | succ n ih =>
    intro i acc h
    by_cases hlt : i < args.length - 2
    · have h0 : i < args.length := by omega
      have h1 : i + 1 < args.length := by omega
      have h2 : i + 2 < args.length := by omega
      rw [scanLoopChecked, dif_pos hlt, List.getElem?_eq_getElem h0,
        List.getElem?_eq_getElem h1, List.getElem?_eq_getElem h2,
        List.drop_eq_getElem_cons h0, List.drop_eq_getElem_cons h1,
        List.drop_eq_getElem_cons h2]
      simp only [Option.some_bind, patternArtifacts]
      cases ha : args[i] == "--ro-bind" with
      | false =>
        simp only [Bool.false_and, Bool.false_eq_true, if_false]
        rw [← List.drop_eq_getElem_cons h2, ← List.drop_eq_getElem_cons h1]
        exact ih (i + 1) acc (by omega)
      | true =>
        cases hb : args[i+1] == "/dev/null" with
        | false =>
          simp only [Bool.true_and, Bool.false_eq_true, if_false]
          rw [← List.drop_eq_getElem_cons h2, ← List.drop_eq_getElem_cons h1]
          exact ih (i + 1) acc (by omega)
        | true =>
          simp only [Bool.true_and, if_true]
          rw [ih (i + 3) (acc ++ [args[i+2]]) (by omega)]
          simp [List.append_assoc]
    · rw [scanLoopChecked, dif_neg hlt,
        patternArtifacts_short (List.drop i args) (by rw [List.length_drop]; omega),
        List.append_nil]

/-- C2: for every argument vector of length at least four whose fourth
element tokenizes, parse_artifacts returns exactly the destinations of
the greedy left-to-right occurrences of the three-token pattern (flag
token --ro-bind, then /dev/null, then a destination), in order of
occurrence, advancing past all three tokens on a match and by one token
otherwise; since patternArtifacts consumes matched tokens, no
overlapping or double counting occurs even when a destination path
equals the flag or null-device literal. -/
theorem parse_artifacts_pattern (cmdline args : List String)
    (h4 : 4 ≤ cmdline.length)
    (hs : shlex_split (cmdline.getD 3 "") = some args) :
    parse_artifacts cmdline = some (patternArtifacts args) := by
  rw [parse_artifacts, if_neg (by omega), hs]
  show scanLoopChecked args 0 [] = some (patternArtifacts args)
  have h := scanLoopChecked_eq_pattern args args.length 0 [] (by omega)
  rw [List.drop_zero] at h
  simpa using h

/-- Witness for C2: a fourth element whose destination token equals the
flag literal --ro-bind; the scan records it once and, having advanced
past all three tokens, does not re-match inside the recorded occurrence,
yielding exactly one artifact. -/
theorem parse_artifacts_pattern_witness :
    4 ≤ (["zsh", "-c", "-l",
        "--ro-bind /dev/null --ro-bind /dev/null /x"] : List String).length ∧
    shlex_split
        ((["zsh", "-c", "-l",
          "--ro-bind /dev/null --ro-bind /dev/null /x"] : List String).getD 3 "") =
      some ["--ro-bind", "/dev/null", "--ro-bind", "/dev/null", "/x"] ∧
    parse_artifacts ["zsh", "-c", "-l", "--ro-bind /dev/null --ro-bind /dev/null /x"] =
      some (patternArtifacts ["--ro-bind", "/dev/null", "--ro-bind", "/dev/null", "/x"]) :=
  ⟨by decide, by decide,
    parse_artifacts_pattern
      ["zsh", "-c", "-l", "--ro-bind /dev/null --ro-bind /dev/null /x"]
      ["--ro-bind", "/dev/null", "--ro-bind", "/dev/null", "/x"]
      (by decide) (by decide)⟩

/-- C4: for every argument vector that has fewer than four elements or
whose fourth element fails shell-word tokenization, parse_artifacts
returns the empty sequence rather than raising an error. -/
theorem parse_artifacts_shape_mismatch (cmdline : List String)
    (h : cmdline.length < 4 ∨ shlex_split (cmdline.getD 3 "") = none) :
    parse_artifacts cmdline = some [] := by
  rcases h with h | h
  · rw [parse_artifacts, if_pos h]
  · by_cases h4 : cmdline.length < 4
    · rw [parse_artifacts, if_pos h4]
    · rw [parse_artifacts, if_neg h4, h]

/-- Witness for C4: a fourth element with an unterminated single quote
fails tokenization (ValueError in shlex.split) and yields no
artifacts. -/
theorem parse_artifacts_shape_mismatch_witness :
    ((["zsh", "-c", "-l", "echo 'oops"] : List String).length < 4 ∨
      shlex_split ((["zsh", "-c", "-l", "echo 'oops"] : List String).getD 3 "") = none) ∧
    parse_artifacts ["zsh", "-c", "-l", "echo 'oops"] = some [] :=
  ⟨Or.inr (by decide),
    parse_artifacts_shape_mismatch ["zsh", "-c", "-l", "echo 'oops"]
      (Or.inr (by decide))⟩

/-- C10: for every finite argument vector whatsoever, parse_artifacts
terminates and returns a sequence without raising an exception: every
token index the three-token scan accesses is within bounds (the
IndexError value none is never produced), including for token lists with
fewer than three tokens. -/
theorem parse_artifacts_total (cmdline : List String) :
    ∃ res, parse_artifacts cmdline = some res := by
  by_cases h4 : cmdline.length < 4
  · exact ⟨[], by rw [parse_artifacts, if_pos h4]⟩
  · cases hs : shlex_split (cmdline.getD 3 "") with
    | none => exact ⟨[], by rw [parse_artifacts, if_neg h4, hs]⟩
    | some args =>
      refine ⟨patternArtifacts args, ?_⟩
      rw [parse_artifacts, if_neg h4, hs]
      show scanLoopChecked args 0 [] = some (patternArtifacts args)
      have h := scanLoopChecked_eq_pattern args args.length 0 [] (by omega)
      rw [List.drop_zero] at h
      simpa using h

end SandboxMonitor
